import Mathlib

/-!
Verification of the grid-aggregation / top-K anomaly-extraction engine of this
repository (`scripts/analyze_geojson.py`) against its natural-language
specification.

The Python source is shallowly embedded below.  Conventions of the embedding:

* Floating-point numbers are modelled by exact rationals (`ℚ`); a possibly-NaN
  concentration value is modelled by `Option ℚ` (`none` = NaN).  All numpy
  operations used by the source (`np.arange`, `np.digitize`, `np.add.at`,
  elementwise division, `np.where` in row-major order) are reproduced on exact
  rationals.
* `np.argsort` (used for the per-file ranking) is modelled as a *stable*
  ascending sort.  numpy's default `argsort` kind is quicksort, whose order on
  tied keys is unspecified; for the short arrays produced here numpy falls back
  to insertion sort, which is stable, so the stable model matches the observed
  behaviour.  Python's built-in `sorted(..., reverse=True)` (used for the
  global ranking) is stable descending by language guarantee and is modelled
  the same way.  Both are realised with Mathlib's stable `List.insertionSort`.
* A source file is a filename plus either its parsed content (three parallel
  arrays, zipped into a list of observations) or `none` when `nc.Dataset` /
  variable access would raise (unreadable file or missing
  latitude/longitude/xco2 arrays).  Exceptions are modelled with `Except`:
  the per-file loop of `analyze_and_convert_to_geojson` contains no exception
  handler, so a raising file aborts the whole call; only `lambda_handler`
  catches, mapping any exception to a 500 response.
-/

set_option maxRecDepth 100000

namespace OCO2

/-- One point observation: a row of the three parallel arrays
`latitude`, `longitude`, `xco2` of an input file.  `xco2 = none` models NaN
(`np.isnan`); latitudes and longitudes are plain numbers. -/
structure Obs where
  lat : ℚ
  lon : ℚ
  xco2 : Option ℚ
deriving DecidableEq, Repr

/-- Grid cell side length: `LL = 1.0` in the source. -/
def LL : ℚ := 1

/-- `np.arange start stop step` for a positive `step`, on exact rationals:
the values `start + k*step` for `k < ⌈(stop - start)/step⌉₊`. -/
def arangeQ (start stop step : ℚ) : List ℚ :=
  (List.range ⌈(stop - start) / step⌉₊).map (fun k => start + (k : ℚ) * step)

/-- `np.digitize x bins` (with `right=False`) for monotonically increasing
`bins`: the number of bin edges that are `≤ x`. -/
def digitizeQ (x : ℚ) (bins : List ℚ) : ℕ :=
  (bins.filter (fun b => b ≤ x)).length

/-- `np.min` over a list (the source only applies it to nonempty arrays;
the `[]` case is arbitrary and unreachable there). -/
def listMin : List ℚ → ℚ
  | [] => 0
  | x :: xs => xs.foldl min x

/-- `np.max` over a list. -/
def listMax : List ℚ → ℚ
  | [] => 0
  | x :: xs => xs.foldl max x

/-- The NaN filter of lines 30-34: keep the rows whose `xco2` is not NaN,
as triples `(lat, lon, xco2)`. -/
def validObs (obs : List Obs) : List (ℚ × ℚ × ℚ) :=
  obs.filterMap (fun o => o.xco2.map (fun v => (o.lat, o.lon, v)))

/-- Line 40: `lat_grid = np.arange(lat.min(), lat.max() + LL, LL)`,
computed from the surviving (non-NaN) rows. -/
def fileLatGrid (obs : List Obs) : List ℚ :=
  let lats := (validObs obs).map (fun t => t.1)
  arangeQ (listMin lats) (listMax lats + LL) LL

/-- Line 41: `lon_grid = np.arange(lon.min(), lon.max() + LL, LL)`. -/
def fileLonGrid (obs : List Obs) : List ℚ :=
  let lons := (validObs obs).map (fun t => t.2.1)
  arangeQ (listMin lons) (listMax lons + LL) LL

/-- Lines 44-51: per-row grid indices `digitize - 1` together with the
range filter `valid_mask` (`0 ≤ idx < len(grid)-1` on both axes); the rows
that survive, as `(lat_index, lon_index, xco2)`. -/
def binnedObs (obs : List Obs) : List (ℕ × ℕ × ℚ) :=
  let lg := fileLatGrid obs
  let og := fileLonGrid obs
  (validObs obs).filterMap (fun t =>
    let i : ℤ := (digitizeQ t.1 lg : ℤ) - 1
    let j : ℤ := (digitizeQ t.2.1 og : ℤ) - 1
    if 0 ≤ i ∧ i < (lg.length : ℤ) - 1 ∧ 0 ≤ j ∧ j < (og.length : ℤ) - 1 then
      some (i.toNat, j.toNat, t.2.2)
    else none)

/-- Lines 54-57: `grid_sum` after the `np.add.at` accumulation, as a function
of the cell index pair. -/
def gridSum (obs : List Obs) : ℕ → ℕ → ℚ :=
  (binnedObs obs).foldl
    (fun g t => fun i j => if i = t.1 ∧ j = t.2.1 then g i j + t.2.2 else g i j)
    (fun _ _ => 0)

/-- Lines 55-58: `grid_count` after the `np.add.at` accumulation. -/
def gridCount (obs : List Obs) : ℕ → ℕ → ℕ :=
  (binnedObs obs).foldl
    (fun g t => fun i j => if i = t.1 ∧ j = t.2.1 then g i j + 1 else g i j)
    (fun _ _ => 0)

/-- Lines 61-74: the non-NaN cells of `grid_avg = grid_sum / grid_count`
(exactly the cells with `count > 0`), listed with their averages in the
row-major traversal order of `np.where`.  A file with no surviving
observation has a grid with zero cells here, matching the `continue`
branches of lines 36-37 and 67-68 (no contribution). -/
def fileCells (obs : List Obs) : List (ℕ × ℕ × ℚ) :=
  let nLat := (fileLatGrid obs).length - 1
  let nLon := (fileLonGrid obs).length - 1
  ((List.range nLat).map (fun i =>
    (List.range nLon).filterMap (fun j =>
      if 0 < gridCount obs i j then
        some (i, j, gridSum obs i j / (gridCount obs i j : ℚ))
      else none))).flatten

/-- A per-file candidate: the dictionary appended to `results`
at lines 86-92. -/
structure Candidate where
  lat_min : ℚ
  lat_max : ℚ
  lon_min : ℚ
  lon_max : ℚ
  avg_co2 : ℚ
deriving DecidableEq, Repr

/-- Lines 86-92: materialise one non-empty cell `(i, j, avg)` as a candidate
record, using the file's own grid boundaries. -/
def toCandidate (obs : List Obs) (c : ℕ × ℕ × ℚ) : Candidate :=
  { lat_min := (fileLatGrid obs).getD c.1 0
    lat_max := (fileLatGrid obs).getD c.1 0 + LL
    lon_min := (fileLonGrid obs).getD c.2.1 0
    lon_max := (fileLonGrid obs).getD c.2.1 0 + LL
    avg_co2 := c.2.2 }

/-- Lines 76-84: `top_idx = np.argsort(valid_values)[::-1][:top_n]` with
`top_n = min(10, len(valid_values))`, applied to the rows of the cell table:
stable ascending sort by average, reversed, truncated.  (`np.argsort`
produces a permutation of the rows by value; applying it before or after
materialising the row dictionaries is the same.) -/
def rankTruncate (cs : List Candidate) : List Candidate :=
  ((List.insertionSort (fun a b => a.avg_co2 ≤ b.avg_co2) cs).reverse).take
    (min 10 cs.length)

/-- One file's contribution to `results`: its ranked, truncated candidate
list (lines 39-92; empty when no valid observation survives binning). -/
def fileCandidates (obs : List Obs) : List Candidate :=
  rankTruncate ((fileCells obs).map (toCandidate obs))

/-- Line 95: Python's stable `sorted(results, key=avg_co2, reverse=True)`. -/
def globalSortDesc (l : List Candidate) : List Candidate :=
  List.insertionSort (fun a b => b.avg_co2 ≤ a.avg_co2) l

/-- Line 95: `global_top10 = sorted(results, ...)[:10]`. -/
def globalTop10 (l : List Candidate) : List Candidate :=
  (globalSortDesc l).take 10

/-- One element of the output `features` array (lines 98-112):
point geometry `[lon_c, lat_c]` plus the candidate's properties. -/
structure Feature where
  lon_c : ℚ
  lat_c : ℚ
  avg_co2 : ℚ
  lat_min : ℚ
  lat_max : ℚ
  lon_min : ℚ
  lon_max : ℚ
deriving DecidableEq, Repr

/-- Lines 99-112: build one GeoJSON feature from a candidate. -/
def toFeature (g : Candidate) : Feature :=
  { lon_c := (g.lon_min + g.lon_max) / 2
    lat_c := (g.lat_min + g.lat_max) / 2
    avg_co2 := g.avg_co2
    lat_min := g.lat_min
    lat_max := g.lat_max
    lon_min := g.lon_min
    lon_max := g.lon_max }

/-- The JSON body of a response: either an error object or a GeoJSON
`FeatureCollection` (represented by its `features` array; the `type` tags
are constants). -/
inductive Body where
  | errorBody (msg : String) : Body
  | geojsonBody (features : List Feature) : Body
deriving DecidableEq, Repr

/-- An HTTP-style response `{statusCode, headers, body}` (headers are the
constant `{"Content-Type": "application/json"}` and are omitted). -/
structure Response where
  statusCode : ℕ
  body : Body
deriving DecidableEq, Repr

/-- An input file: its path/name and its parsed content.  `content = none`
models a file on which `nc.Dataset(...)` or the access to the
`latitude`/`longitude`/`xco2` variables raises (unreadable or malformed). -/
structure RawFile where
  name : String
  content : Option (List Obs)
deriving DecidableEq

/-- Lines 24-28 for one file: either the exception raised while reading, or
the file's candidate contribution (lines 30-92). -/
def readFileCandidates (f : RawFile) : Except String (List Candidate) :=
  match f.content with
  | none => .error ("could not read " ++ f.name)
  | some obs => .ok (fileCandidates obs)

/-- The `for tmp_file in file_paths` loop (lines 23-92): accumulate every
file's candidates into `results`, in file order.  The loop body has no
exception handler, so the first raising file aborts the whole loop and
discards everything accumulated so far. -/
def allResults : List RawFile → Except String (List Candidate)
  | [] => .ok []
  | f :: fs => do
    let r ← readFileCandidates f
    let rest ← allResults fs
    pure (r ++ rest)

/-- `analyze_and_convert_to_geojson` (lines 8-120): filter to `.nc4` files,
return the 400 error response when none remain, otherwise aggregate, merge,
rank and serialise.  `Except.error` models an uncaught exception escaping
the function. -/
def analyze (file_paths : List RawFile) : Except String Response :=
  let ncFiles := file_paths.filter (fun f => f.name.endsWith ".nc4")
  if ncFiles.isEmpty then
    .ok ⟨400, .errorBody "No valid .nc4 files found."⟩
  else
    (allResults ncFiles).map (fun results =>
      ⟨200, .geojsonBody ((globalTop10 results).map toFeature)⟩)

/-- The `try/except` of `lambda_handler` (lines 122-150), applied to a given
file list: any exception raised inside `analyze_and_convert_to_geojson`
becomes a 500 error response for the whole batch. -/
def lambda_handler (file_paths : List RawFile) : Response :=
  match analyze file_paths with
  | .ok r => r
  | .error e => ⟨500, .errorBody e⟩

/-- The non-NaN concentration values binned into cell `(i, j)` of a file's
grid (the multiset the spec calls "the valid concentration values assigned
to that cell"), in traversal order. -/
def cellValues (obs : List Obs) (i j : ℕ) : List ℚ :=
  ((binnedObs obs).filter (fun t => i = t.1 ∧ j = t.2.1)).map (fun t => t.2.2)

/-- Canonical descending sort of a list of (average) values: the
specification's "rank descending by average" on the level of values. -/
def sortDQ (l : List ℚ) : List ℚ :=
  List.insertionSort (fun a b : ℚ => b ≤ a) l

/-- Descending sort truncated to the top 10: the specification's
global "merge and keep the 10 largest", on the level of values. -/
def topTQ (l : List ℚ) : List ℚ :=
  (sortDQ l).take 10

/-- Scenario A of the specification: points
`[(10.2, 20.3, 400.0), (10.2, 20.3, 410.0), (10.9, 20.9, 5.0)]`. -/
def scenAObs : List Obs :=
  [⟨10.2, 20.3, some 400⟩, ⟨10.2, 20.3, some 410⟩, ⟨10.9, 20.9, some 5⟩]

/-- A two-point input producing two grid cells with equal averages:
cell `(0,0)` is traversed before cell `(0,1)`. -/
def tieObs : List Obs :=
  [⟨0, 0, some 100⟩, ⟨1/2, 3/2, some 100⟩]

deriving instance DecidableEq for Except

instance : IsTrans ℚ (fun a b : ℚ => b ≤ a) :=
  ⟨fun _ _ _ h h2 => le_trans h2 h⟩

instance : IsTotal ℚ (fun a b : ℚ => b ≤ a) :=
  ⟨fun a b => le_total b a⟩

instance : IsAntisymm ℚ (fun a b : ℚ => b ≤ a) :=
  ⟨fun _ _ h h2 => le_antisymm h2 h⟩

instance : IsTrans Candidate (fun a b => a.avg_co2 ≤ b.avg_co2) :=
  ⟨fun _ _ _ h h2 => le_trans h h2⟩

instance : IsTotal Candidate (fun a b => a.avg_co2 ≤ b.avg_co2) :=
  ⟨fun a b => le_total _ _⟩

instance : IsTrans Candidate (fun a b => b.avg_co2 ≤ a.avg_co2) :=
  ⟨fun _ _ _ h h2 => le_trans h2 h⟩

instance : IsTotal Candidate (fun a b => b.avg_co2 ≤ a.avg_co2) :=
  ⟨fun a b => le_total _ _⟩

lemma sortDQ_sorted (l : List ℚ) :
    List.Sorted (fun a b : ℚ => b ≤ a) (sortDQ l) :=
  List.sorted_insertionSort _ l

lemma sortDQ_perm (l : List ℚ) : List.Perm (sortDQ l) l :=
  List.perm_insertionSort _ l

lemma sortDQ_congr {l m : List ℚ} (h : List.Perm l m) : sortDQ l = sortDQ m :=
  List.eq_of_perm_of_sorted ((sortDQ_perm l).trans (h.trans (sortDQ_perm m).symm))
    (sortDQ_sorted l) (sortDQ_sorted m)

lemma sortDQ_of_sorted {l : List ℚ} (h : List.Sorted (fun a b : ℚ => b ≤ a) l) :
    sortDQ l = l :=
  List.eq_of_perm_of_sorted (sortDQ_perm l) (sortDQ_sorted l) h

lemma topTQ_congr {l m : List ℚ} (h : List.Perm l m) : topTQ l = topTQ m := by
  unfold topTQ
  rw [sortDQ_congr h]

/-- Pushing one more element below `k` elements that dominate it does not
change the first `k` entries. -/
lemma take_cons_of_many_ge :
    ∀ (k : ℕ) (l : List ℚ) (x : ℚ),
      List.Sorted (fun a b : ℚ => b ≤ a) l →
      k ≤ (l.filter (fun y => x ≤ y)).length →
      (∀ z ∈ l, z ≤ x) →
      (x :: l).take k = l.take k := by
  intro k
  induction k with
  | zero => simp
  | succ k ih =>
    intro l x hs hlen hall
    match l with
    | [] => simp at hlen
    | y :: l' =>
      have hne : (y :: l').filter (fun y2 => x ≤ y2) ≠ [] := by
        intro h0
        rw [h0] at hlen
        simp at hlen
      obtain ⟨z, hzf⟩ := List.exists_mem_of_ne_nil _ hne
      have hzmem : z ∈ y :: l' := (List.mem_filter.mp hzf).1
      have hxz : x ≤ z := by simpa using (List.mem_filter.mp hzf).2
      have hzy : z ≤ y := by
        rcases List.mem_cons.mp hzmem with h0 | h0
        · exact le_of_eq h0
        · exact (List.sorted_cons.mp hs).1 z h0
      have heq : x = y := le_antisymm (hxz.trans hzy) (hall y (List.mem_cons_self _ _))
      subst heq
      rw [List.filter_cons_of_pos (by simp)] at hlen
      simp only [List.length_cons, Nat.succ_le_succ_iff] at hlen
      simp only [List.take_succ_cons]
      congr 1
      exact ih l' _ (List.sorted_cons.mp hs).2 hlen
        (fun z hz => hall z (List.mem_cons_of_mem _ hz))

/-- Inserting an element dominated by at least `k` elements of a
descending-sorted list does not change the first `k` entries. -/
lemma orderedInsert_take_of_many_ge :
    ∀ (l : List ℚ) (x : ℚ) (k : ℕ),
      List.Sorted (fun a b : ℚ => b ≤ a) l →
      k ≤ (l.filter (fun y => x ≤ y)).length →
      (List.orderedInsert (fun a b : ℚ => b ≤ a) x l).take k = l.take k := by
  intro l
  induction l with
  | nil =>
    intro x k _ hlen
    simp at hlen
    simp [hlen]
  | cons y l' ih =>
    intro x k hs hlen
    by_cases h : y ≤ x
    · have hins : List.orderedInsert (fun a b : ℚ => b ≤ a) x (y :: l') = x :: y :: l' := by
        simp [List.orderedInsert, h]
      rw [hins]
      refine take_cons_of_many_ge k (y :: l') x hs hlen ?_
      intro z hz
      rcases List.mem_cons.mp hz with h0 | h0
      · exact h0 ▸ h
      · exact le_trans ((List.sorted_cons.mp hs).1 z h0) h
    · have : List.orderedInsert (fun a b : ℚ => b ≤ a) x (y :: l') =
          y :: List.orderedInsert (fun a b : ℚ => b ≤ a) x l' := by
        simp [List.orderedInsert, h]
      rw [this]
      match k with
      | 0 => simp
      | k + 1 =>
        have hxy : x ≤ y := le_of_lt (lt_of_not_le h)
        have hfilt : (y :: l').filter (fun y2 => x ≤ y2) =
            y :: l'.filter (fun y2 => x ≤ y2) := by
          simp [List.filter_cons, hxy]
        rw [hfilt] at hlen
        simp only [List.length_cons, Nat.succ_le_succ_iff] at hlen
        simp only [List.take_succ_cons]
        congr 1
        exact ih x k (List.sorted_cons.mp hs).2 hlen

/-- Prepending elements, each dominated by at least `k` elements of `base`,
does not change the first `k` entries of the descending sort. -/
lemma sortDQ_take_append_of_ge (k : ℕ) (base : List ℚ) :
    ∀ d : List ℚ, (∀ x ∈ d, k ≤ (base.filter (fun y => x ≤ y)).length) →
      (sortDQ (d ++ base)).take k = (sortDQ base).take k := by
  intro d
  induction d with
  | nil => simp
  | cons x d' ih =>
    intro hall
    have hcons : sortDQ ((x :: d') ++ base) =
        List.orderedInsert (fun a b : ℚ => b ≤ a) x (sortDQ (d' ++ base)) := rfl
    rw [hcons]
    have hlen : k ≤ ((sortDQ (d' ++ base)).filter (fun y => x ≤ y)).length := by
      have hperm := (sortDQ_perm (d' ++ base)).filter (fun y => decide (x ≤ y))
      rw [hperm.length_eq, List.filter_append, List.length_append]
      have hbase := hall x (List.mem_cons_self _ _)
      omega
    rw [orderedInsert_take_of_many_ge _ x k (sortDQ_sorted _) hlen]
    exact ih (fun y hy => hall y (List.mem_cons_of_mem _ hy))

/-- Truncating the left summand to its top 10 does not change the top 10
of an append. -/
lemma topTQ_append_left (a b : List ℚ) : topTQ (a ++ b) = topTQ (topTQ a ++ b) := by
  by_cases hlen : a.length ≤ 10
  · have htop : topTQ a = sortDQ a := by
      unfold topTQ
      exact List.take_of_length_le (by rw [(sortDQ_perm a).length_eq]; exact hlen)
    rw [htop]
    exact (topTQ_congr ((sortDQ_perm a).append (List.Perm.refl b))).symm
  · push_neg at hlen
    have hslen : 10 ≤ (sortDQ a).length := by
      rw [(sortDQ_perm a).length_eq]
      omega
    have hsplit : (sortDQ a).take 10 ++ (sortDQ a).drop 10 = sortDQ a :=
      List.take_append_drop 10 (sortDQ a)
    have hcross : ∀ y ∈ (sortDQ a).take 10, ∀ x ∈ (sortDQ a).drop 10, x ≤ y := by
      have hpw : List.Pairwise (fun p q : ℚ => q ≤ p)
          ((sortDQ a).take 10 ++ (sortDQ a).drop 10) := by
        rw [hsplit]
        exact sortDQ_sorted a
      exact fun y hy x hx => (List.pairwise_append.mp hpw).2.2 y hy x hx
    have hperm : List.Perm (a ++ b)
        ((sortDQ a).drop 10 ++ ((sortDQ a).take 10 ++ b)) := by
      refine ((sortDQ_perm a).symm.append (List.Perm.refl b)).trans ?_
      conv_lhs => rw [← hsplit]
      rw [← List.append_assoc]
      exact List.perm_append_comm.append (List.Perm.refl b)
    have hcond : ∀ x ∈ (sortDQ a).drop 10,
        10 ≤ (((sortDQ a).take 10 ++ b).filter (fun y => x ≤ y)).length := by
      intro x hx
      have h1 : ((sortDQ a).take 10).filter (fun y => x ≤ y) = (sortDQ a).take 10 :=
        List.filter_eq_self.mpr (fun y hy => decide_eq_true (hcross y hy x hx))
      rw [List.filter_append, List.length_append, h1, List.length_take]
      omega
    calc topTQ (a ++ b) = topTQ ((sortDQ a).drop 10 ++ ((sortDQ a).take 10 ++ b)) :=
        topTQ_congr hperm
      _ = topTQ ((sortDQ a).take 10 ++ b) :=
        sortDQ_take_append_of_ge 10 _ _ hcond
      _ = topTQ (topTQ a ++ b) := rfl

/-- Truncating the right summand to its top 10 does not change the top 10
of an append. -/
lemma topTQ_append_right (a b : List ℚ) : topTQ (a ++ b) = topTQ (a ++ topTQ b) :=
  calc topTQ (a ++ b) = topTQ (b ++ a) := topTQ_congr List.perm_append_comm
    _ = topTQ (topTQ b ++ a) := topTQ_append_left b a
    _ = topTQ (a ++ topTQ b) := topTQ_congr List.perm_append_comm

/-- Truncating every block of a concatenation to its top 10 does not change
the top 10 of the whole: the value-level content of claim C3. -/
lemma topTQ_flatten_map (ls : List (List ℚ)) :
    topTQ ((ls.map topTQ).flatten) = topTQ ls.flatten := by
  induction ls with
  | nil => rfl
  | cons l ls ih =>
    simp only [List.map_cons, List.flatten_cons]
    rw [← topTQ_append_left, topTQ_append_right, ih, ← topTQ_append_right]

/-- A descending-by-average permutation of a candidate list has as its
value image the canonical descending sort of the values. -/
lemma map_avg_eq_sortDQ {l m : List Candidate}
    (hp : List.Perm m l)
    (hs : List.Pairwise (fun a b => b.avg_co2 ≤ a.avg_co2) m) :
    m.map Candidate.avg_co2 = sortDQ (l.map Candidate.avg_co2) :=
  List.eq_of_perm_of_sorted
    ((hp.map _).trans (sortDQ_perm (l.map Candidate.avg_co2)).symm)
    (List.pairwise_map.mpr hs) (sortDQ_sorted _)

lemma globalSortDesc_map_avg (l : List Candidate) :
    (globalSortDesc l).map Candidate.avg_co2 = sortDQ (l.map Candidate.avg_co2) :=
  map_avg_eq_sortDQ (List.perm_insertionSort _ l) (List.sorted_insertionSort _ l)

lemma rankRev_map_avg (cs : List Candidate) :
    ((List.insertionSort (fun a b => a.avg_co2 ≤ b.avg_co2) cs).reverse).map Candidate.avg_co2
      = sortDQ (cs.map Candidate.avg_co2) :=
  map_avg_eq_sortDQ ((List.reverse_perm _).trans (List.perm_insertionSort _ cs))
    (List.pairwise_reverse.mpr (List.sorted_insertionSort _ cs))

lemma take_min_length {α : Type} (l : List α) (k : ℕ) :
    l.take (min k l.length) = l.take k := by
  rcases le_total k l.length with h | h
  · rw [min_eq_left h]
  · rw [min_eq_right h, List.take_length, List.take_of_length_le h]

/-- The value image of one file's ranked, truncated candidate list is the
descending sort of its cell averages, truncated to 10. -/
lemma rankTruncate_map_avg (cs : List Candidate) :
    (rankTruncate cs).map Candidate.avg_co2 = (sortDQ (cs.map Candidate.avg_co2)).take 10 := by
  unfold rankTruncate
  have hXlen : (List.insertionSort (fun a b => a.avg_co2 ≤ b.avg_co2) cs).reverse.length
      = cs.length := by
    rw [List.length_reverse, List.length_insertionSort]
  rw [← hXlen, take_min_length, List.map_take, rankRev_map_avg]

/-- The value image of the global ranked, truncated list is the descending
sort of all values, truncated to 10. -/
lemma globalTop10_map_avg (l : List Candidate) :
    (globalTop10 l).map Candidate.avg_co2 = topTQ (l.map Candidate.avg_co2) := by
  unfold globalTop10 topTQ
  rw [List.map_take, globalSortDesc_map_avg]

lemma mem_of_mem_rankTruncate {c : Candidate} {cs : List Candidate}
    (h : c ∈ rankTruncate cs) : c ∈ cs := by
  unfold rankTruncate at h
  exact (List.perm_insertionSort (fun a b => a.avg_co2 ≤ b.avg_co2) cs).mem_iff.mp
    (List.mem_reverse.mp (List.mem_of_mem_take h))

lemma mem_of_mem_globalTop10 {c : Candidate} {l : List Candidate}
    (h : c ∈ globalTop10 l) : c ∈ l := by
  unfold globalTop10 globalSortDesc at h
  exact (List.perm_insertionSort (fun a b => b.avg_co2 ≤ a.avg_co2) l).mem_iff.mp
    (List.mem_of_mem_take h)

/-- Inserting an element satisfying `p`, when every element the insertion
can pass over fails `p`: the `p`-part gains the new element at its head. -/
lemma filter_orderedInsert_of_pos {α : Type} (r : α → α → Prop) [DecidableRel r]
    (p : α → Bool) (a : α) (hpa : p a = true)
    (hdom : ∀ y, ¬ r a y → p y = false) :
    ∀ l : List α, (List.orderedInsert r a l).filter p = a :: l.filter p := by
  intro l
  induction l with
  | nil => simp [hpa]
  | cons y l ih =>
    by_cases h : r a y
    · simp [List.orderedInsert, h, List.filter_cons, hpa]
    · simp [List.orderedInsert, h, List.filter_cons, hdom y h, ih]

/-- Inserting an element failing `p` does not change the `p`-part. -/
lemma filter_orderedInsert_of_neg {α : Type} (r : α → α → Prop) [DecidableRel r]
    (p : α → Bool) (a : α) (hpa : p a = false) :
    ∀ l : List α, (List.orderedInsert r a l).filter p = l.filter p := by
  intro l
  induction l with
  | nil => simp [hpa]
  | cons y l ih =>
    by_cases h : r a y
    · simp [List.orderedInsert, h, List.filter_cons, hpa]
    · simp [List.orderedInsert, h, List.filter_cons, ih]

/-- Stability of insertion sort on one `p`-class: when elements satisfying
`p` compare `≤` to everything the insertion passes over, sorting does not
reorder the `p`-elements. -/
lemma filter_insertionSort_eq {α : Type} (r : α → α → Prop) [DecidableRel r]
    (p : α → Bool) (hp : ∀ x y, p x = true → ¬ r x y → p y = false) :
    ∀ l : List α, (List.insertionSort r l).filter p = l.filter p := by
  intro l
  induction l with
  | nil => rfl
  | cons a l ih =>
    show (List.orderedInsert r a (List.insertionSort r l)).filter p = _
    by_cases hpa : p a = true
    · rw [filter_orderedInsert_of_pos r p a hpa (fun y hy => hp a y hpa hy), ih,
        List.filter_cons_of_pos hpa]
    · have hpa2 : p a = false := by
        revert hpa
        cases p a <;> simp
      rw [filter_orderedInsert_of_neg r p a hpa2, ih,
        List.filter_cons_of_neg (by simp [hpa2])]

/-- Unrolling the `np.add.at` accumulation for sums: the final value at one
index pair is the sum of the values binned there. -/
lemma foldl_addAt_sum (l : List (ℕ × ℕ × ℚ)) :
    ∀ (g : ℕ → ℕ → ℚ) (i j : ℕ),
      (l.foldl
        (fun g t => fun i2 j2 => if i2 = t.1 ∧ j2 = t.2.1 then g i2 j2 + t.2.2 else g i2 j2)
        g) i j
      = g i j + ((l.filter (fun t => i = t.1 ∧ j = t.2.1)).map (fun t => t.2.2)).sum := by
  induction l with
  | nil => intro g i j; simp
  | cons t l ih =>
    intro g i j
    rw [List.foldl_cons, ih]
    by_cases h : i = t.1 ∧ j = t.2.1
    · rw [List.filter_cons_of_pos (by simpa using h)]
      simp only [h, and_self, if_true, List.map_cons, List.sum_cons]
      ring
    · rw [List.filter_cons_of_neg (by simpa using h)]
      simp [h]

/-- Unrolling the `np.add.at` accumulation for counts. -/
lemma foldl_addAt_count (l : List (ℕ × ℕ × ℚ)) :
    ∀ (g : ℕ → ℕ → ℕ) (i j : ℕ),
      (l.foldl
        (fun g t => fun i2 j2 => if i2 = t.1 ∧ j2 = t.2.1 then g i2 j2 + 1 else g i2 j2)
        g) i j
      = g i j + (l.filter (fun t => i = t.1 ∧ j = t.2.1)).length := by
  induction l with
  | nil => intro g i j; simp
  | cons t l ih =>
    intro g i j
    rw [List.foldl_cons, ih]
    by_cases h : i = t.1 ∧ j = t.2.1
    · rw [List.filter_cons_of_pos (by simpa using h)]
      simp only [h, and_self, if_true, List.length_cons]
      omega
    · rw [List.filter_cons_of_neg (by simpa using h)]
      simp [h]

lemma gridSum_eq (obs : List Obs) (i j : ℕ) :
    gridSum obs i j = (cellValues obs i j).sum := by
  unfold gridSum cellValues
  rw [foldl_addAt_sum]
  simp

lemma gridCount_eq (obs : List Obs) (i j : ℕ) :
    gridCount obs i j = (cellValues obs i j).length := by
  unfold gridCount cellValues
  rw [foldl_addAt_count]
  simp

/-- Membership in the per-file cell table, characterised. -/
lemma mem_fileCells {obs : List Obs} {i j : ℕ} {v : ℚ} :
    (i, j, v) ∈ fileCells obs ↔
      i < (fileLatGrid obs).length - 1 ∧ j < (fileLonGrid obs).length - 1 ∧
      0 < gridCount obs i j ∧ v = gridSum obs i j / (gridCount obs i j : ℚ) := by
  unfold fileCells
  simp only [List.mem_flatten, List.mem_map, List.mem_range, exists_exists_and_eq_and,
    List.mem_filterMap, Option.ite_none_right_eq_some, Option.some.injEq, Prod.mk.injEq]
  constructor
  · rintro ⟨a, ha, b, hb, hcnt, rfl, rfl, rfl⟩
    exact ⟨ha, hb, hcnt, rfl⟩
  · rintro ⟨h1, h2, h3, h4⟩
    exact ⟨i, h1, j, h2, h3, rfl, rfl, h4.symm⟩

/-- The range filter of lines 48-51: indices surviving into `binnedObs` lie
inside the file's grid. -/
lemma mem_binnedObs_lt {obs : List Obs} {t : ℕ × ℕ × ℚ} (h : t ∈ binnedObs obs) :
    t.1 < (fileLatGrid obs).length - 1 ∧ t.2.1 < (fileLonGrid obs).length - 1 := by
  unfold binnedObs at h
  simp only [List.mem_filterMap, Option.ite_none_right_eq_some, Option.some.injEq] at h
  obtain ⟨s, hs, ⟨h0i, hilt, h0j, hjlt⟩, heq⟩ := h
  subst heq
  constructor
  · simp only
    omega
  · simp only
    omega

/-- Claim C1: every cell that receives at least one valid (non-NaN, in-range)
concentration observation appears in the per-file cell table with average
equal to the arithmetic mean (sum divided by count) of exactly the values
binned into it; a cell that receives none is absent from the table, and every
reported candidate is built from a cell of the table (so empty cells are never
reported, neither as average 0 nor as NaN). -/
theorem C1_cell_average (obs : List Obs) (i j : ℕ) :
    ((∃ v, (i, j, v) ∈ fileCells obs) ↔ cellValues obs i j ≠ []) ∧
    (∀ v, (i, j, v) ∈ fileCells obs →
      v = (cellValues obs i j).sum / ((cellValues obs i j).length : ℚ)) ∧
    (∀ c ∈ fileCandidates obs, ∃ t ∈ fileCells obs, c = toCandidate obs t) := by
  refine ⟨⟨?_, ?_⟩, ?_, ?_⟩
  · rintro ⟨v, hv⟩
    have h := (mem_fileCells.mp hv).2.2.1
    rw [gridCount_eq] at h
    intro h0
    rw [h0] at h
    simp at h
  · intro hne
    have hfne : (binnedObs obs).filter (fun t => i = t.1 ∧ j = t.2.1) ≠ [] := by
      intro h0
      unfold cellValues at hne
      rw [h0] at hne
      simp at hne
    obtain ⟨t, ht⟩ := List.exists_mem_of_ne_nil _ hfne
    have htb : t ∈ binnedObs obs := (List.mem_filter.mp ht).1
    have hij : i = t.1 ∧ j = t.2.1 := by simpa using (List.mem_filter.mp ht).2
    have hlt := mem_binnedObs_lt htb
    have hcnt : 0 < gridCount obs i j := by
      rw [gridCount_eq]
      exact List.length_pos.mpr (by simpa [cellValues] using hne)
    exact ⟨_, mem_fileCells.mpr ⟨hij.1 ▸ hlt.1, hij.2 ▸ hlt.2, hcnt, rfl⟩⟩
  · intro v hv
    rw [(mem_fileCells.mp hv).2.2.2, gridSum_eq, gridCount_eq]
  · intro c hc
    unfold fileCandidates at hc
    obtain ⟨t, ht, rfl⟩ := List.mem_map.mp (mem_of_mem_rankTruncate hc)
    exact ⟨t, ht, rfl⟩

/-- Witness for C1 at Scenario A, cell (0,0): the reported average 815/3 is
the mean of the values binned there. -/
theorem C1_witness :
    (815 : ℚ)/3 = (cellValues scenAObs 0 0).sum / ((cellValues scenAObs 0 0).length : ℚ) :=
  (C1_cell_average scenAObs 0 0).2.1 (815/3) (by with_unfolding_all decide)

/-- Claim C2: for a single file with at least one valid (non-NaN)
concentration value, the output candidate list has length exactly
`min 10 (number of non-empty cells)`. -/
theorem C2_candidate_count (obs : List Obs)
    (hvalid : ∃ o ∈ obs, o.xco2.isSome) :
    (fileCandidates obs).length = min 10 (fileCells obs).length := by
  unfold fileCandidates rankTruncate
  rw [List.length_take, List.length_reverse, List.length_insertionSort, List.length_map]
  omega

/-- Witness for C2 at Scenario A: one valid value, one non-empty cell,
candidate count `min 10 1 = 1`. -/
theorem C2_witness :
    (∃ o ∈ scenAObs, o.xco2.isSome) ∧
      (fileCandidates scenAObs).length = min 10 (fileCells scenAObs).length :=
  ⟨by with_unfolding_all decide, C2_candidate_count scenAObs (by with_unfolding_all decide)⟩

/-- Two lists with the same image under `f`, drawn from a set on which `f`
is injective, are equal. -/
lemma eq_of_map_eq_of_inj {α β : Type} {f : α → β} {S : List α} :
    ∀ {L₁ L₂ : List α}, L₁.map f = L₂.map f → (∀ a ∈ L₁, a ∈ S) → (∀ b ∈ L₂, b ∈ S) →
      (∀ a ∈ S, ∀ b ∈ S, f a = f b → a = b) → L₁ = L₂ := by
  intro L₁
  induction L₁ with
  | nil =>
    intro L₂ hmap _ _ _
    match L₂ with
    | [] => rfl
    | b :: L₂ => simp at hmap
  | cons a L₁ ih =>
    intro L₂ hmap hm1 hm2 hinj
    match L₂ with
    | [] => simp at hmap
    | b :: L₂ =>
      simp only [List.map_cons, List.cons.injEq] at hmap
      have hab : a = b :=
        hinj a (hm1 a (List.mem_cons_self _ _)) b (hm2 b (List.mem_cons_self _ _)) hmap.1
      rw [hab, ih hmap.2 (fun x hx => hm1 x (List.mem_cons_of_mem _ hx))
        (fun x hx => hm2 x (List.mem_cons_of_mem _ hx)) hinj]

lemma mem_flatten_of_mem_truncated {c : Candidate} {css : List (List Candidate)}
    (h : c ∈ ((css.map rankTruncate).flatten)) : c ∈ css.flatten := by
  obtain ⟨l, hl, hcl⟩ := List.mem_flatten.mp h
  obtain ⟨cs, hcs, rfl⟩ := List.mem_map.mp hl
  exact List.mem_flatten.mpr ⟨cs, hcs, mem_of_mem_rankTruncate hcl⟩

/-- Claim C3: merging the per-file top-10-truncated candidate lists and
re-ranking yields the same top 10 as ranking the full untruncated union
directly — identical value sequences always, and identical candidate lists
whenever averages do not tie across the union. -/
theorem C3_truncation_refinement (css : List (List Candidate)) :
    (globalTop10 ((css.map rankTruncate).flatten)).map Candidate.avg_co2
      = (globalTop10 css.flatten).map Candidate.avg_co2 ∧
    ((∀ a ∈ css.flatten, ∀ b ∈ css.flatten, a.avg_co2 = b.avg_co2 → a = b) →
      globalTop10 ((css.map rankTruncate).flatten) = globalTop10 css.flatten) := by
  have hvals : (globalTop10 ((css.map rankTruncate).flatten)).map Candidate.avg_co2
      = (globalTop10 css.flatten).map Candidate.avg_co2 := by
    rw [globalTop10_map_avg, globalTop10_map_avg, List.map_flatten, List.map_flatten,
      List.map_map]
    have hcomp : List.map (List.map Candidate.avg_co2 ∘ rankTruncate) css
        = List.map (topTQ ∘ List.map Candidate.avg_co2) css :=
      List.map_congr_left (fun cs _ => by
        simpa [topTQ] using rankTruncate_map_avg cs)
    rw [hcomp, ← List.map_map, topTQ_flatten_map]
  refine ⟨hvals, fun hinj => ?_⟩
  exact eq_of_map_eq_of_inj hvals
    (fun a ha => mem_flatten_of_mem_truncated (mem_of_mem_globalTop10 ha))
    (fun b hb => mem_of_mem_globalTop10 hb) hinj

/-- Witness for C3: two files with one candidate each, distinct averages. -/
theorem C3_witness :
    globalTop10 (([[⟨0, 1, 0, 1, 7⟩], [⟨1, 2, 1, 2, 9⟩]].map rankTruncate).flatten)
      = globalTop10 ([[⟨0, 1, 0, 1, 7⟩], [⟨1, 2, 1, 2, 9⟩]] : List (List Candidate)).flatten :=
  (C3_truncation_refinement [[⟨0, 1, 0, 1, 7⟩], [⟨1, 2, 1, 2, 9⟩]]).2
    (by with_unfolding_all decide)

/-- Claim C4 (amended): the per-file output is ranked descending by average
and truncated to at most the top 10 — its value sequence is the descending
sort of the cell averages, truncated at 10 — but candidates with equal
averages are emitted in the REVERSE of the original traversal order (the
source reverses an ascending argsort), not in traversal order. -/
theorem C4_per_file_ranking (obs : List Obs) :
    (fileCandidates obs).map Candidate.avg_co2
      = (sortDQ (((fileCells obs).map (toCandidate obs)).map Candidate.avg_co2)).take 10 ∧
    ∀ v : ℚ, (((fileCandidates obs).filter (fun c => c.avg_co2 = v)).reverse).Sublist
      (((fileCells obs).map (toCandidate obs)).filter (fun c => c.avg_co2 = v)) := by
  constructor
  · exact rankTruncate_map_avg _
  · intro v
    unfold fileCandidates rankTruncate
    have hstz := filter_insertionSort_eq (fun a b : Candidate => a.avg_co2 ≤ b.avg_co2)
      (fun c => decide (c.avg_co2 = v))
      (fun x y hx hxy => by
        have hxv : x.avg_co2 = v := of_decide_eq_true hx
        have hlt : y.avg_co2 < x.avg_co2 := lt_of_not_le hxy
        rw [hxv] at hlt
        exact decide_eq_false (ne_of_lt hlt))
      ((fileCells obs).map (toCandidate obs))
    have h1 := (List.take_sublist
        (min 10 ((fileCells obs).map (toCandidate obs)).length)
        ((List.insertionSort (fun a b => a.avg_co2 ≤ b.avg_co2)
          ((fileCells obs).map (toCandidate obs))).reverse)).filter
        (fun c => decide (c.avg_co2 = v))
    have h2 := h1.reverse
    rw [List.filter_reverse, List.reverse_reverse, hstz] at h2
    exact h2

/-- Counterexample for C4 as stated: on `tieObs` the two cells tie at
average 100 and the code emits them in reverse traversal order, differing
from the stable descending ranking in traversal order (which is what
`globalTop10` — Python's stable `sorted(..., reverse=True)[:10]` —
computes). -/
theorem C4_counterexample :
    fileCandidates tieObs ≠ globalTop10 ((fileCells tieObs).map (toCandidate tieObs)) := by
  with_unfolding_all decide

/-- Claim C8 (amended): Scenario A yields exactly one candidate, but the
grid is anchored at the file-local minima, so the cell covers
[10.2, 11.2) x [20.3, 21.3) — not [10.0, 11.0) x [20.0, 21.0) — with
average (400 + 410 + 5)/3 = 815/3. -/
theorem C8_scenarioA :
    fileCandidates scenAObs =
      [{ lat_min := 51/5, lat_max := 56/5, lon_min := 203/10, lon_max := 213/10,
         avg_co2 := 815/3 }] := by
  with_unfolding_all decide

/-- Counterexample for C8 as stated: the single candidate's cell starts at
latitude 10.2, not 10.0 (the grid is not aligned to whole degrees). -/
theorem C8_counterexample :
    (fileCandidates scenAObs).map Candidate.lat_min = [51/5] ∧ ((51 : ℚ)/5) ≠ 10 := by
  with_unfolding_all decide

/-- Claim C5 (amended): an empty file list hits the early-return branch and
produces a 400 error response, not an empty feature collection; the empty
feature collection (status 200) arises exactly when at least one `.nc4`
file survives the name filter and the batch yields zero candidates. -/
theorem C5_empty_input :
    analyze [] = .ok ⟨400, .errorBody "No valid .nc4 files found."⟩ ∧
    ∀ fs : List RawFile,
      (fs.filter (fun f => f.name.endsWith ".nc4")).isEmpty = false →
      allResults (fs.filter (fun f => f.name.endsWith ".nc4")) = .ok [] →
      analyze fs = .ok ⟨200, .geojsonBody []⟩ := by
  constructor
  · rfl
  · intro fs h1 h2
    simp only [analyze, h1, h2, Bool.false_eq_true, if_false, Except.map]
    rfl

/-- Counterexample for C5 as stated: the empty file list yields the 400
error body, which is not a (empty) feature collection. -/
theorem C5_counterexample :
    analyze [] = .ok ⟨400, .errorBody "No valid .nc4 files found."⟩ ∧
    Body.errorBody "No valid .nc4 files found." ≠ .geojsonBody [] :=
  ⟨rfl, by simp⟩

/-- Witness for C5: a readable `.nc4` file whose only observation is NaN
yields the empty feature collection with status 200. -/
theorem C5_witness :
    analyze [⟨"e.nc4", some [⟨1, 2, none⟩]⟩] = .ok ⟨200, .geojsonBody []⟩ :=
  C5_empty_input.2 [⟨"e.nc4", some [⟨1, 2, none⟩]⟩]
    (by with_unfolding_all decide) (by with_unfolding_all decide)

/-- The per-file loop has no exception handler: the first unreadable file
makes the whole accumulation raise. -/
lemma allResults_error_of_bad {f : RawFile} (hbad : f.content = none) :
    ∀ l₁ l₂ : List RawFile, (∀ g ∈ l₁, g.content ≠ none) →
      allResults (l₁ ++ f :: l₂) = .error ("could not read " ++ f.name) := by
  intro l₁
  induction l₁ with
  | nil =>
    intro l₂ _
    show allResults (f :: l₂) = _
    unfold allResults readFileCandidates
    rw [hbad]
    rfl
  | cons g l₁ ih =>
    intro l₂ hg
    have hgc : g.content ≠ none := hg g (List.mem_cons_self _ _)
    obtain ⟨obs, hobs⟩ := Option.ne_none_iff_exists'.mp hgc
    show allResults (g :: (l₁ ++ f :: l₂)) = _
    unfold allResults readFileCandidates
    rw [hobs, ih l₂ (fun x hx => hg x (List.mem_cons_of_mem _ hx))]
    rfl

/-- Claim C6 (amended): a malformed `.nc4` file is NOT confined to itself:
the exception escapes the per-file loop, `analyze_and_convert_to_geojson`
raises, and `lambda_handler` turns the whole batch into one 500 error
response — candidates of the other files (even ones already processed) are
discarded. -/
theorem C6_malformed_aborts_batch (fs₁ fs₂ : List RawFile) (f : RawFile)
    (hgood : ∀ g ∈ fs₁, g.name.endsWith ".nc4" = true → g.content ≠ none)
    (hf4 : f.name.endsWith ".nc4" = true) (hbad : f.content = none) :
    analyze (fs₁ ++ f :: fs₂) = .error ("could not read " ++ f.name) ∧
    lambda_handler (fs₁ ++ f :: fs₂) = ⟨500, .errorBody ("could not read " ++ f.name)⟩ := by
  have hfilter : (fs₁ ++ f :: fs₂).filter (fun x => x.name.endsWith ".nc4")
      = fs₁.filter (fun x => x.name.endsWith ".nc4")
        ++ f :: fs₂.filter (fun x => x.name.endsWith ".nc4") := by
    rw [List.filter_append]
    have hcons : List.filter (fun x => x.name.endsWith ".nc4") (f :: fs₂)
        = f :: List.filter (fun x => x.name.endsWith ".nc4") fs₂ := by
      simp [List.filter_cons, hf4]
    rw [hcons]
  have herr := allResults_error_of_bad hbad
    (fs₁.filter (fun x => x.name.endsWith ".nc4"))
    (fs₂.filter (fun x => x.name.endsWith ".nc4"))
    (fun g hg => hgood g (List.mem_filter.mp hg).1 (List.mem_filter.mp hg).2)
  have hne : (fs₁.filter (fun x => x.name.endsWith ".nc4")
      ++ f :: fs₂.filter (fun x => x.name.endsWith ".nc4")).isEmpty = false := by
    simp
  have h1 : analyze (fs₁ ++ f :: fs₂) = .error ("could not read " ++ f.name) := by
    simp only [analyze, hfilter, hne, Bool.false_eq_true, if_false, herr, Except.map]
  refine ⟨h1, ?_⟩
  unfold lambda_handler
  rw [h1]

/-- Counterexample for C6 as stated: with a good file and a malformed file
in one batch, the whole call raises (nothing is emitted), although the good
file alone yields one feature — the good file's contribution is lost. -/
theorem C6_counterexample :
    analyze [⟨"good.nc4", some scenAObs⟩, ⟨"bad.nc4", none⟩]
        = .error "could not read bad.nc4" ∧
    analyze [⟨"good.nc4", some scenAObs⟩] =
      .ok ⟨200, .geojsonBody [⟨104/5, 107/10, 815/3, 51/5, 56/5, 203/10, 213/10⟩]⟩ := by
  with_unfolding_all decide

/-- Witness for C6 (amended). -/
theorem C6_witness :
    lambda_handler [⟨"good.nc4", some scenAObs⟩, ⟨"bad.nc4", none⟩]
      = ⟨500, .errorBody ("could not read " ++ "bad.nc4")⟩ :=
  (C6_malformed_aborts_batch [⟨"good.nc4", some scenAObs⟩] [] ⟨"bad.nc4", none⟩
    (by with_unfolding_all decide) (by with_unfolding_all decide) rfl).2

/-- Claim C7: a file whose concentrations are all NaN contributes the empty
candidate list — reading it succeeds (`.ok`, no exception) — and removing
it from any batch position leaves the accumulated results unchanged. -/
theorem C7_all_nan_file (name : String) (obs : List Obs)
    (hnan : ∀ o ∈ obs, o.xco2 = none) :
    fileCandidates obs = [] ∧
    readFileCandidates ⟨name, some obs⟩ = .ok [] ∧
    ∀ l₁ l₂ : List RawFile,
      allResults (l₁ ++ ⟨name, some obs⟩ :: l₂) = allResults (l₁ ++ l₂) := by
  have hvalid : validObs obs = [] := by
    refine List.filterMap_eq_nil_iff.mpr (fun o ho => ?_)
    rw [hnan o ho]
    rfl
  have hlen : (fileLatGrid obs).length = 1 := by
    simp only [fileLatGrid, arangeQ, hvalid, List.map_nil, List.length_map, List.length_range]
    have h1 : (listMax ([] : List ℚ) + LL - listMin []) / LL = 1 := by
      norm_num [listMin, listMax, LL]
    rw [h1]
    exact (Nat.ceil_one : ⌈(1 : ℚ)⌉₊ = 1)
  have hcells : fileCells obs = [] := by
    simp only [fileCells, hlen]
    rfl
  have hfc : fileCandidates obs = [] := by
    unfold fileCandidates
    rw [hcells]
    rfl
  have hread : readFileCandidates ⟨name, some obs⟩ = .ok [] := by
    simp [readFileCandidates, hfc]
  have hstep : ∀ (g : RawFile) (fs : List RawFile),
      allResults (g :: fs) = (readFileCandidates g).bind
        (fun r => (allResults fs).map (fun rest => r ++ rest)) :=
    fun _ _ => rfl
  refine ⟨hfc, hread, ?_⟩
  intro l₁
  induction l₁ with
  | nil =>
    intro l₂
    show allResults (⟨name, some obs⟩ :: l₂) = allResults l₂
    rw [hstep, hread]
    cases h2 : allResults l₂ <;> simp [Except.bind, Except.map]
  | cons g l₁ ih =>
    intro l₂
    show allResults (g :: (l₁ ++ ⟨name, some obs⟩ :: l₂)) = allResults (g :: (l₁ ++ l₂))
    rw [hstep, hstep, ih]

/-- Witness for C7: dropping an all-NaN file from a two-file batch leaves
the accumulated results unchanged. -/
theorem C7_witness :
    allResults [⟨"good.nc4", some scenAObs⟩, ⟨"nan.nc4", some [⟨1, 2, none⟩]⟩]
      = allResults [⟨"good.nc4", some scenAObs⟩] :=
  (C7_all_nan_file "nan.nc4" [⟨1, 2, none⟩] (by with_unfolding_all decide)).2.2
    [⟨"good.nc4", some scenAObs⟩] []

/-- Inversion of `analyze`: a 200/GeoJSON result comes from a successful
accumulation over the name-filtered files, serialised through
`globalTop10` and `toFeature`. -/
lemma analyze_ok_geojson {fs : List RawFile} {code : ℕ} {fts : List Feature}
    (h : analyze fs = .ok ⟨code, .geojsonBody fts⟩) :
    ∃ results, allResults (fs.filter (fun f => f.name.endsWith ".nc4")) = .ok results ∧
      fts = (globalTop10 results).map toFeature ∧ code = 200 := by
  by_cases hemp : (fs.filter (fun f => f.name.endsWith ".nc4")).isEmpty = true
  · simp only [analyze, hemp, if_true] at h
    simp at h
  · have hemp2 : (fs.filter (fun f => f.name.endsWith ".nc4")).isEmpty = false :=
      Bool.eq_false_iff.mpr hemp
    cases hres : allResults (fs.filter (fun f => f.name.endsWith ".nc4")) with
    | error e =>
      simp only [analyze, hemp2, Bool.false_eq_true, if_false, hres, Except.map] at h
      exact Except.noConfusion h
    | ok results =>
      simp only [analyze, hemp2, Bool.false_eq_true, if_false, hres, Except.map,
        Except.ok.injEq, Response.mk.injEq, Body.geojsonBody.injEq] at h
      exact ⟨results, rfl, h.2.symm, h.1.symm⟩

/-- Every candidate accumulated in `results` comes from some readable file
of the batch. -/
lemma mem_allResults :
    ∀ {fs : List RawFile} {rs : List Candidate}, allResults fs = .ok rs →
      ∀ {c : Candidate}, c ∈ rs →
        ∃ f ∈ fs, ∃ obs, f.content = some obs ∧ c ∈ fileCandidates obs := by
  intro fs
  induction fs with
  | nil =>
    intro rs h c hc
    simp only [allResults, Except.ok.injEq] at h
    rw [← h] at hc
    cases hc
  | cons f fs ih =>
    intro rs h c hc
    rw [show allResults (f :: fs) = (readFileCandidates f).bind
        (fun r => (allResults fs).map (fun rest => r ++ rest)) from rfl] at h
    cases hf : readFileCandidates f with
    | error e =>
      rw [hf] at h
      simp [Except.bind] at h
    | ok r =>
      rw [hf] at h
      cases hrest : allResults fs with
      | error e =>
        rw [hrest] at h
        simp [Except.bind, Except.map] at h
      | ok rest =>
        rw [hrest] at h
        simp only [Except.bind, Except.map, Except.ok.injEq] at h
        rw [← h] at hc
        rcases List.mem_append.mp hc with h1 | h1
        · cases hcont : f.content with
          | none =>
            unfold readFileCandidates at hf
            rw [hcont] at hf
            cases hf
          | some obs =>
            unfold readFileCandidates at hf
            rw [hcont] at hf
            injection hf with h2
            exact ⟨f, List.mem_cons_self _ _, obs, hcont, h2 ▸ h1⟩
        · obtain ⟨g, hg, obs, hobs, hcg⟩ := ih hrest h1
          exact ⟨g, List.mem_cons_of_mem _ hg, obs, hobs, hcg⟩

/-- Claim C9 (implicit): the features array of a successful result is
emitted in non-increasing order of `avg_co2` — the global descending sort
order survives serialisation. -/
theorem C9_output_order (fs : List RawFile) (code : ℕ) (fts : List Feature)
    (h : analyze fs = .ok ⟨code, .geojsonBody fts⟩) :
    List.Pairwise (fun a b : Feature => b.avg_co2 ≤ a.avg_co2) fts := by
  obtain ⟨results, _, rfl, _⟩ := analyze_ok_geojson h
  have hsor : List.Pairwise (fun a b : Candidate => b.avg_co2 ≤ a.avg_co2)
      (globalSortDesc results) := List.sorted_insertionSort _ results
  have htake : List.Pairwise (fun a b : Candidate => b.avg_co2 ≤ a.avg_co2)
      (globalTop10 results) := hsor.sublist (List.take_sublist 10 _)
  exact htake.map toFeature (fun a b hab => hab)

/-- Witness for C9 at a one-file batch. -/
theorem C9_witness :
    List.Pairwise (fun a b : Feature => b.avg_co2 ≤ a.avg_co2)
      [⟨104/5, 107/10, 815/3, 51/5, 56/5, 203/10, 213/10⟩] :=
  C9_output_order [⟨"good.nc4", some scenAObs⟩] 200
    [⟨104/5, 107/10, 815/3, 51/5, 56/5, 203/10, 213/10⟩] (by with_unfolding_all decide)

/-- Claim C10 (implicit): every emitted feature's bounding box is a full
1-degree square (`lat_max = lat_min + 1`, `lon_max = lon_min + 1`) and its
point geometry is the box's midpoint. -/
theorem C10_feature_geometry (fs : List RawFile) (code : ℕ) (fts : List Feature)
    (h : analyze fs = .ok ⟨code, .geojsonBody fts⟩) :
    ∀ ft ∈ fts, ft.lat_max = ft.lat_min + 1 ∧ ft.lon_max = ft.lon_min + 1 ∧
      ft.lon_c = (ft.lon_min + ft.lon_max) / 2 ∧ ft.lat_c = (ft.lat_min + ft.lat_max) / 2 := by
  obtain ⟨results, hres, rfl, _⟩ := analyze_ok_geojson h
  intro ft hft
  obtain ⟨c, hc, rfl⟩ := List.mem_map.mp hft
  obtain ⟨f, _, obs, _, hcand⟩ := mem_allResults hres (mem_of_mem_globalTop10 hc)
  unfold fileCandidates at hcand
  obtain ⟨t, _, rfl⟩ := List.mem_map.mp (mem_of_mem_rankTruncate hcand)
  exact ⟨rfl, rfl, rfl, rfl⟩

/-- Witness for C10 at a one-file batch. -/
theorem C10_witness :
    (⟨104/5, 107/10, 815/3, 51/5, 56/5, 203/10, 213/10⟩ : Feature).lat_max
        = (⟨104/5, 107/10, 815/3, 51/5, 56/5, 203/10, 213/10⟩ : Feature).lat_min + 1 ∧
    (⟨104/5, 107/10, 815/3, 51/5, 56/5, 203/10, 213/10⟩ : Feature).lon_max
        = (⟨104/5, 107/10, 815/3, 51/5, 56/5, 203/10, 213/10⟩ : Feature).lon_min + 1 ∧
    (⟨104/5, 107/10, 815/3, 51/5, 56/5, 203/10, 213/10⟩ : Feature).lon_c
        = ((⟨104/5, 107/10, 815/3, 51/5, 56/5, 203/10, 213/10⟩ : Feature).lon_min
          + (⟨104/5, 107/10, 815/3, 51/5, 56/5, 203/10, 213/10⟩ : Feature).lon_max) / 2 ∧
    (⟨104/5, 107/10, 815/3, 51/5, 56/5, 203/10, 213/10⟩ : Feature).lat_c
        = ((⟨104/5, 107/10, 815/3, 51/5, 56/5, 203/10, 213/10⟩ : Feature).lat_min
          + (⟨104/5, 107/10, 815/3, 51/5, 56/5, 203/10, 213/10⟩ : Feature).lat_max) / 2 :=
  C10_feature_geometry [⟨"good.nc4", some scenAObs⟩] 200
    [⟨104/5, 107/10, 815/3, 51/5, 56/5, 203/10, 213/10⟩] (by with_unfolding_all decide)
    ⟨104/5, 107/10, 815/3, 51/5, 56/5, 203/10, 213/10⟩ (by with_unfolding_all decide)

end OCO2
